import Mathlib

/-!
Shallow embedding of the cw-croncat scheduling core
(`src/contracts/cw-croncat/src/tasks.rs`): task catalog, the two slot
indices (block/height-keyed and time-keyed), the aggregate balance ledger
held in the config, and the public operations `create_task`,
`remove_task`, `refill_task` together with the read queries
`query_get_tasks` (pagination) and `query_slot_tasks`.

Machine integers (`u64`, `Uint128`) are modelled as `Nat`; the amounts and
ids involved never approach overflow in the statements below, and the
source's `saturating_add` on `Uint128` agrees with `Nat` addition there.
Storage maps (`Map<Vec<u8>, Task>`, `Map<u64, Vec<Vec<u8>>>`) are modelled
as association lists kept sorted by key, matching the ascending-key
iteration order of the source's `range`/`keys` scans.  Each state-mutating
operation returns `State × Except ContractError Response`: the returned
state is the storage as of the moment the operation returned, so an error
result that returns the input state unchanged models "side-effect-free on
failure".
-/

namespace Croncat

/-- A native coin: denomination and (Uint128) amount. -/
structure Coin where
  denom : String
  amount : Nat
deriving DecidableEq, Repr

/-- One end of a schedule boundary (`BoundarySpec` in cw-croncat-core):
either a block height or a timestamp. -/
inductive BoundarySpec where
  | height (h : Nat)
  | time (t : Nat)
deriving DecidableEq, Repr

/-- Optional start/end limits constraining when a schedule is active.
(`end` is a Lean keyword, hence the field name `end_`.) -/
structure Boundary where
  start : Option BoundarySpec
  end_ : Option BoundarySpec
deriving DecidableEq, Repr

/-- Schedule specification (`Interval` in slots.rs). -/
inductive Interval where
  | once
  | immediate
  | block (n : Nat)
  | cron (s : String)
deriving DecidableEq, Repr

/-- Which slot index a resolved slot belongs to (`SlotType`). -/
inductive SlotType where
  | block
  | cron
deriving DecidableEq, Repr

/-- The instruction payload of an action, modelled with the message shapes
exercised by the repository (bank send, staking delegate, wasm execute). -/
inductive CosmosMsg where
  | bankSend (to_address : String) (amount : List Coin)
  | stakeDelegate (validator : String) (amount : Coin)
  | wasmExecute (contract_addr : String) (payload : String)
deriving DecidableEq, Repr

/-- An (instruction, gas-limit) pair. -/
structure Action where
  msg : CosmosMsg
  gas_limit : Option Nat
deriving DecidableEq, Repr

/-- The stored task record (`Task` in cw-croncat-core), field for field. -/
structure Task where
  owner_id : String
  interval : Interval
  boundary : Boundary
  stop_on_fail : Bool
  total_deposit : List Coin
  actions : List Action
  rules : Option String
deriving DecidableEq, Repr

/-- The request body of `create_task` (`TaskRequest`): a `Task` minus the
owner and the deposit, which the facade fills in from the call context. -/
structure TaskRequest where
  interval : Interval
  boundary : Boundary
  stop_on_fail : Bool
  actions : List Action
  rules : Option String
deriving DecidableEq, Repr

/-- The relevant slice of the contract `Config`: pause flag, contract
owner, the aggregate balance ledger, and the agent-nomination fields. -/
structure Config where
  paused : Bool
  owner_id : String
  available_balance : List Coin
  min_tasks_per_agent : Nat
  agent_nomination_begin_time : Option Nat
deriving DecidableEq, Repr

/-- Whole contract storage: task catalog (keyed by identity hash, kept in
ascending key order), ever-created counter, the two slot indices (kept in
ascending slot-id order), config, and the active agent queue. -/
structure State where
  tasks : List (String × Task)
  task_total : Nat
  time_slots : List (Nat × List String)
  block_slots : List (Nat × List String)
  config : Config
  agent_active_queue : List String
deriving DecidableEq, Repr

/-- Call context: sender and attached funds (`MessageInfo`). -/
structure MessageInfo where
  sender : String
  funds : List Coin
deriving DecidableEq, Repr

/-- Execution context: current block height, current block time, and this
contract's own address (`Env`). -/
structure Env where
  height : Nat
  time : Nat
  contract_address : String
deriving DecidableEq, Repr

/-- All errors raised in tasks.rs are `ContractError::CustomError { val }`. -/
structure ContractError where
  val : String
deriving DecidableEq, Repr

/-- An outgoing bank-send refund instruction (`BankMsg::Send`). -/
structure BankMsg where
  to_address : String
  amount : List Coin
deriving DecidableEq, Repr

/-- Response: event attributes plus queued submessages. -/
structure Response where
  attributes : List (String × String)
  messages : List BankMsg
deriving DecidableEq, Repr

/-! ### Storage-map primitives (association lists sorted by key) -/

/-- Lookup (`Map::may_load`) on the task catalog. -/
def tasksGet (ts : List (String × Task)) (k : String) : Option Task :=
  match ts.find? (fun e => e.1 = k) with
  | some e => some e.2
  | none => none

/-- Byte-lexicographic order on keys, as cosmwasm storage orders them. -/
def charsLt : List Char → List Char → Bool
  | [], [] => false
  | [], _ :: _ => true
  | _ :: _, [] => false
  | a :: as, b :: bs =>
    if a.val < b.val then true
    else if b.val < a.val then false
    else charsLt as bs

/-- Key order for the task catalog. -/
def strLt (a b : String) : Bool := charsLt a.data b.data

/-- Insert a fresh key into the catalog, keeping ascending key order. -/
def tasksInsert : List (String × Task) → String → Task → List (String × Task)
  | [], k, v => [(k, v)]
  | e :: ts, k, v =>
    if strLt k e.1 then (k, v) :: e :: ts else e :: tasksInsert ts k v

/-- Overwrite the value stored at an existing key (the success branch of
`Map::update` when the entry is present). -/
def tasksReplace (ts : List (String × Task)) (k : String) (v : Task) :
    List (String × Task) :=
  ts.map (fun e => if e.1 = k then (k, v) else e)

/-- Deletion (`Map::remove`) on the task catalog. -/
def tasksRemove (ts : List (String × Task)) (k : String) :
    List (String × Task) :=
  ts.filter (fun e => ¬ e.1 = k)

/-- Lookup (`Map::may_load`) on a slot index. -/
def slotsGet (s : List (Nat × List String)) (k : Nat) : Option (List String) :=
  match s.find? (fun e => e.1 = k) with
  | some e => some e.2
  | none => none

/-- Save (`Map::save`) on a slot index: insert or overwrite, keeping ascending
slot-id order. -/
def slotsSet : List (Nat × List String) → Nat → List String →
    List (Nat × List String)
  | [], k, v => [(k, v)]
  | e :: s, k, v =>
    if k < e.1 then (k, v) :: e :: s
    else if k = e.1 then (k, v) :: s
    else e :: slotsSet s k v

/-! ### Balance helpers -/

/-- Total amount a coin list holds of one denomination. -/
def totalOf (bal : List Coin) (d : String) : Nat :=
  (bal.map (fun c => if c.denom = d then c.amount else 0)).sum

/-- Add one coin into a balance: credit the first entry with a matching
denomination, or append a new entry. -/
def addCoin : List Coin → Coin → List Coin
  | [], c => [c]
  | b :: bs, c =>
    if b.denom = c.denom then { b with amount := b.amount + c.amount } :: bs
    else b :: addCoin bs c

/-- Modelled from the spec: `GenericBalance::add_tokens` (cw-croncat-core,
not under src/) — "adds the same amount to the aggregate ledger", merging
per matching asset denomination and appending unmatched denominations. -/
def add_tokens (bal add : List Coin) : List Coin :=
  add.foldl addCoin bal

/-- Subtract one coin from a balance: debit the first entry with a matching
denomination (ignoring a missing denomination). -/
def subCoin : List Coin → Coin → List Coin
  | [], _ => []
  | b :: bs, c =>
    if b.denom = c.denom then { b with amount := b.amount - c.amount } :: bs
    else b :: subCoin bs c

/-- Modelled from the spec: `GenericBalance::minus_tokens` (cw-croncat-core,
not under src/) — "subtracts that deposit from the aggregate ledger",
debiting per matching asset denomination. -/
def minus_tokens (bal sub : List Coin) : List Coin :=
  sub.foldl subCoin bal

/-- Rust `Coin`'s `Display`: `"40atom"`. -/
def coinStr (c : Coin) : String := toString c.amount ++ c.denom

/-! ### Spec-modelled helpers from cw-croncat-core / slots.rs / state.rs
(their sources are not under src/; only tasks.rs is) -/

/-- Encoding of a coin list used by the hash model. -/
def encCoins (cs : List Coin) : String :=
  String.join (cs.map (fun c => coinStr c ++ ","))

/-- Encoding of a message used by the hash model. -/
def encMsg : CosmosMsg → String
  | .bankSend dst amt => "bank:" ++ dst ++ ":" ++ encCoins amt
  | .stakeDelegate v amt => "stake:" ++ v ++ ":" ++ coinStr amt
  | .wasmExecute c p => "wasm:" ++ c ++ ":" ++ p

/-- Encoding of one action used by the hash model. -/
def encAction (a : Action) : String :=
  encMsg a.msg ++ "@" ++ (match a.gas_limit with
    | some g => toString g
    | none => "-")

/-- Encoding of an interval used by the hash model. -/
def encInterval : Interval → String
  | .once => "once"
  | .immediate => "immediate"
  | .block n => "block:" ++ toString n
  | .cron s => "cron:" ++ s

/-- Encoding of a boundary endpoint used by the hash model. -/
def encSpec : Option BoundarySpec → String
  | none => "-"
  | some (.height h) => "h" ++ toString h
  | some (.time t) => "t" ++ toString t

/-- Modelled from the spec: `Task::to_hash` (cw-croncat-core, not under
src/) — "a task's identity hash is computed deterministically over
{owner, schedule, boundary, stop_on_failure, actions, rules} — excluding
deposit".  The Sha256 digest is modelled as a deterministic string
encoding of exactly those fields; `total_deposit` does not occur. -/
def Task.to_hash (t : Task) : String :=
  t.owner_id ++ "|" ++ encInterval t.interval ++ "|" ++
    encSpec t.boundary.start ++ "|" ++ encSpec t.boundary.end_ ++ "|" ++
    (if t.stop_on_fail then ("1") else ("0")) ++ "|" ++
    String.join (t.actions.map (fun a => encAction a ++ ";")) ++ "|" ++
    (match t.rules with
      | some r => r
      | none => "-")

/-- Modelled from the spec: `Task::is_valid_msg` (cw-croncat-core, not
under src/) — "validate every action's target is permitted (no
self-referential privileged calls back into this contract's own
administrative surface)": a wasm-execute action aimed at this contract's
own address is rejected. -/
def Task.is_valid_msg (t : Task) (contract_addr _owner_id _cfg_owner : String) :
    Bool :=
  t.actions.all (fun a =>
    match a.msg with
    | .wasmExecute c _ => ¬ c = contract_addr
    | _ => true)

/-- Modelled from the spec: `Interval::is_valid` (slots.rs, not under
src/) — "the schedule is syntactically valid (cron parses, block interval
is non-zero, etc.)".  Cron parsing is modelled as the six-field shape of
the repository's valid example `"0 0 * * * *"`. -/
def Interval.is_valid : Interval → Bool
  | .once => true
  | .immediate => true
  | .block n => ¬ n = 0
  | .cron s => (s.splitOn (" ")).length = 6

/-- Clip a candidate height slot against `boundary.end`: outside the end
boundary the resolver returns the terminal sentinel 0. -/
def boundedHeight (b : Boundary) (cand : Nat) : Nat × SlotType :=
  match b.end_ with
  | some (.height e) => (if e < cand then 0 else cand, SlotType.block)
  | _ => (cand, SlotType.block)

/-- Clip a candidate time slot against `boundary.end`. -/
def boundedTime (b : Boundary) (cand : Nat) : Nat × SlotType :=
  match b.end_ with
  | some (.time e) => (if e < cand then 0 else cand, SlotType.cron)
  | _ => (cand, SlotType.cron)

/-- Modelled from the spec: `Interval::next` (slots.rs, not under src/) —
the interval resolver, returning the next eligible slot id and its kind,
with `0` as the terminal "do not schedule" sentinel when the candidate
falls outside `boundary.end`.  `Immediate` and `Once` resolve to the next
block height (the repository's tests and the spec's concrete scenario
place an `Immediate` task created at height 12345 into height slot
12346); `Block n` resolves to `current_height + n`; `Cron` resolves to a
time bucket, kind `Time`, modelled as the next time tick. -/
def Interval.next (i : Interval) (env : Env) (b : Boundary) : Nat × SlotType :=
  match i with
  | .once => boundedHeight b (env.height + 1)
  | .immediate => boundedHeight b (env.height + 1)
  | .block n => boundedHeight b (env.height + n)
  | .cron _ => boundedTime b (env.time + 1)

/-- Modelled from the spec: `increment_tasks` (state.rs, not under src/) —
"monotonically increasing count of tasks ever created"; returns the new
total, as the source uses it for the demand signal. -/
def increment_tasks (total : Nat) : Nat := total + 1

/-- Modelled from the spec: `agents_to_let_in` (agent subsystem, not under
src/) — the demand signal: nonzero exactly when task load outpaces
`min_tasks_per_agent × active executors`. -/
def agents_to_let_in (min_tasks_per_agent num_active_agents task_total : Nat) :
    Nat :=
  if min_tasks_per_agent * num_active_agents < task_total then
    task_total - min_tasks_per_agent * num_active_agents
  else 0

/-- Debug formatting of a slot kind, as the source logs it. -/
def SlotType.str : SlotType → String
  | .block => "Block"
  | .cron => "Cron"

/-! ### Read queries (tasks.rs) -/

/-- The `TaskResponse` view built by every read query. -/
structure TaskResponse where
  task_hash : String
  owner_id : String
  interval : Interval
  boundary : Boundary
  stop_on_fail : Bool
  total_deposit : List Coin
  actions : List Action
  rules : Option String
deriving DecidableEq, Repr

/-- Project a stored task to its response view. -/
def taskResponse (t : Task) : TaskResponse :=
  { task_hash := t.to_hash
    owner_id := t.owner_id
    interval := t.interval
    boundary := t.boundary
    stop_on_fail := t.stop_on_fail
    total_deposit := t.total_deposit
    actions := t.actions
    rules := t.rules }

/-- The paginated catalog listing `query_get_tasks` (tasks.rs 14–44).
`size = task_total.min(1000)`, `from_index` defaults to 0, `limit`
defaults to 100 and is clamped to `size`; the ascending range scan is
the stored (key-ascending) list. -/
def query_get_tasks (st : State) (from_index limit : Option Nat) :
    List TaskResponse :=
  let size := min st.task_total 1000
  let fi := from_index.getD 0
  let lim := min (limit.getD 100) size
  (((st.tasks.drop fi).take lim).map (fun e => taskResponse e.2))

/-- The "what's due" query `query_slot_tasks` (tasks.rs 120–185).  With
an explicit slot id the source loads `block_hashes` from `block_slots`
and — at tasks.rs line 140 — loads `time_hashes` from `block_slots` as
well (not from `time_slots`); with no slot argument it takes the first
(smallest-id) entry of each index.  A kind with no matching slot keeps
id 0 and an empty list. -/
def query_slot_tasks (st : State) (slot : Option Nat) :
    Nat × List String × Nat × List String :=
  match slot with
  | some id =>
    let block_hashes := (slotsGet st.block_slots id).getD []
    let block_id := if block_hashes.isEmpty then 0 else id
    let time_hashes := (slotsGet st.block_slots id).getD []
    let time_id := if time_hashes.isEmpty then 0 else id
    (block_id, block_hashes, time_id, time_hashes)
  | none =>
    let tpair :=
      match st.time_slots.head? with
      | some e => (e.1, e.2)
      | none => (0, [])
    let bpair :=
      match st.block_slots.head? with
      | some e => (e.1, e.2)
      | none => (0, [])
    (bpair.1, bpair.2, tpair.1, tpair.2)

/-- The occupied-slot query `query_slot_ids` (tasks.rs 189–199): ascending key lists,
`(time, block)`. -/
def query_slot_ids (st : State) : List Nat × List Nat :=
  (st.time_slots.map Prod.fst, st.block_slots.map Prod.fst)

/-! ### create_task (tasks.rs 204–372) -/

/-- The closure `update_vec_data` (tasks.rs 291–306): append the new hash
to a slot's existing list, or start a one-element list. -/
def update_vec_data (d : Option (List String)) (hash : String) :
    List String :=
  match d with
  | some data => data ++ [hash]
  | none => [hash]

/-- The immutable `Task` record `create_task` builds from the request and
the call context (tasks.rs 224–232). -/
def builtTask (info : MessageInfo) (task : TaskRequest) : Task :=
  { owner_id := info.sender
    interval := task.interval
    boundary := task.boundary
    stop_on_fail := task.stop_on_fail
    total_deposit := info.funds
    actions := task.actions
    rules := task.rules }

/-- The operation `create_task` (tasks.rs 204–372).  Validations reject with the input
state unchanged; after the one fallible step (the hash-collision-checked
catalog insert) the counter increment, slot push, ledger credit and
agent-nomination config update all happen unconditionally. -/
def create_task (st : State) (info : MessageInfo) (env : Env)
    (task : TaskRequest) : State × Except ContractError Response :=
  if info.funds.isEmpty then
    (st, Except.error ⟨"Must attach funds"⟩)
  else
    let c := st.config
    if c.paused then
      (st, Except.error ⟨"Create task paused"⟩)
    else
      let owner_id := info.sender
      let item : Task := builtTask info task
      if ¬ item.is_valid_msg env.contract_address owner_id c.owner_id then
        (st, Except.error ⟨"Actions Message Unsupported"⟩)
      else if ¬ item.interval.is_valid then
        (st, Except.error ⟨"Interval invalid"⟩)
      else
        let hash := item.to_hash
        let next := item.interval.next env item.boundary
        let next_id := next.1
        let slot_kind := next.2
        if next_id = 0 then
          (st, Except.error ⟨"Task ended"⟩)
        else if (tasksGet st.tasks hash).isSome then
          -- `tasks.update` rejects an existing hash without mutating
          (st, Except.error ⟨"Task already exists"⟩)
        else
          let tasks := tasksInsert st.tasks hash item
          let size := increment_tasks st.task_total
          let block_slots :=
            match slot_kind with
            | .block =>
              slotsSet st.block_slots next_id
                (update_vec_data (slotsGet st.block_slots next_id) hash)
            | .cron => st.block_slots
          let time_slots :=
            match slot_kind with
            | .cron =>
              slotsSet st.time_slots next_id
                (update_vec_data (slotsGet st.time_slots next_id) hash)
            | .block => st.time_slots
          let num_active_agents := st.agent_active_queue.length
          let num_agents_to_accept :=
            agents_to_let_in c.min_tasks_per_agent num_active_agents size
          let c2 : Config :=
            { c with
              available_balance := add_tokens c.available_balance info.funds
              agent_nomination_begin_time :=
                if ¬ num_agents_to_accept = 0 ∧
                    c.agent_nomination_begin_time = none then
                  some env.time
                else c.agent_nomination_begin_time }
          ({ st with
              tasks := tasks
              task_total := size
              block_slots := block_slots
              time_slots := time_slots
              config := c2 },
            Except.ok
              { attributes :=
                  [("method", "create_task"),
                   ("slot_id", toString next_id),
                   ("slot_kind", slot_kind.str),
                   ("task_hash", hash)]
                messages := [] })

/-! ### remove_task (tasks.rs 375–450) -/

/-- The per-kind slot scrub of `remove_task`: retain every hash other
than the removed one in each slot's list, then drop any slot whose list
is (or was already) empty instead of saving it empty. -/
def scrub (slots : List (Nat × List String)) (hash : String) :
    List (Nat × List String) :=
  (slots.map (fun e => (e.1, e.2.filter (fun h => ¬ h = hash)))).filter
    (fun e => ¬ e.2.isEmpty)

/-- The operation `remove_task` (tasks.rs 375–450): not-found error on an absent hash;
otherwise delete from the catalog, scrub both slot indices, queue one
bank-send refund of the full remaining deposit to the stored owner, and
debit the aggregate ledger.  It receives no caller identity at all. -/
def remove_task (st : State) (task_hash : String) :
    State × Except ContractError Response :=
  match tasksGet st.tasks task_hash with
  | none => (st, Except.error ⟨"No task found by hash"⟩)
  | some task =>
    let tasks := tasksRemove st.tasks task_hash
    let time_slots := scrub st.time_slots task_hash
    let block_slots := scrub st.block_slots task_hash
    let submsg : BankMsg :=
      { to_address := task.owner_id, amount := task.total_deposit }
    let c2 : Config :=
      { st.config with
        available_balance :=
          minus_tokens st.config.available_balance task.total_deposit }
    ({ st with
        tasks := tasks
        time_slots := time_slots
        block_slots := block_slots
        config := c2 },
      Except.ok
        { attributes := [("method", "remove_task")]
          messages := [submsg] })

/-! ### refill_task (tasks.rs 454–506) -/

/-- The deposit-merge loop of `refill_task` (tasks.rs 480–491), verbatim:
for every existing deposit entry `t` and every attached fund entry `f`
one coin is pushed — `t + f` when the denominations match, `t` unchanged
otherwise.  (Attached denominations not present in the deposit are never
pushed.) -/
def refill_merge (deposit funds : List Coin) : List Coin :=
  deposit.flatMap (fun t =>
    funds.map (fun f =>
      if f.denom = t.denom then
        { denom := t.denom, amount := t.amount + f.amount }
      else t))

/-- The operation `refill_task` (tasks.rs 454–506): not-found error on an absent hash,
authorization error when the caller is not the task owner; otherwise the
attached funds are credited to the aggregate ledger and the deposit is
replaced by `refill_merge` under the unchanged catalog key. -/
def refill_task (st : State) (info : MessageInfo) (task_hash : String) :
    State × Except ContractError Response :=
  match tasksGet st.tasks task_hash with
  | none => (st, Except.error ⟨"Task doesnt exist"⟩)
  | some task =>
    if ¬ task.owner_id = info.sender then
      (st, Except.error ⟨"Only owner can refill their task"⟩)
    else
      let c2 : Config :=
        { st.config with
          available_balance :=
            add_tokens st.config.available_balance info.funds }
      let task2 : Task :=
        { task with total_deposit := refill_merge task.total_deposit info.funds }
      let tasks := tasksReplace st.tasks task_hash task2
      ({ st with tasks := tasks, config := c2 },
        Except.ok
          { attributes :=
              [("method", "refill_task"),
               ("total_deposit",
                 String.join (task2.total_deposit.map coinStr))]
            messages := [] })

/-! ### Concrete fixtures (mirroring the repository's test scenario:
one staking action, 37 atom attached, block height 12345) -/

/-- An unpaused config with no balance and no nomination window. -/
def cfg0 : Config :=
  { paused := false
    owner_id := "admin"
    available_balance := []
    min_tasks_per_agent := 3
    agent_nomination_begin_time := none }

/-- The freshly instantiated contract state. -/
def st0 : State :=
  { tasks := []
    task_total := 0
    time_slots := []
    block_slots := []
    config := cfg0
    agent_active_queue := [] }

/-- Execution context at block height 12345. -/
def env0 : Env := { height := 12345, time := 1000, contract_address := "croncat" }

/-- The staking action used throughout the repository's tests. -/
def act0 : Action :=
  { msg := CosmosMsg.stakeDelegate ("you") ⟨"atom", 3⟩, gas_limit := some 150000 }

/-- An `Immediate` request with an unconstrained boundary. -/
def req0 : TaskRequest :=
  { interval := Interval.immediate
    boundary := { start := none, end_ := none }
    stop_on_fail := false
    actions := [act0]
    rules := none }

/-- A creation call: sender `alice`, 37 atom attached. -/
def info0 : MessageInfo := { sender := "alice", funds := [⟨"atom", 37⟩] }

/-- The task record the fixture creation builds. -/
def task37 : Task := builtTask info0 req0

/-- Its identity hash. -/
def hash37 : String := task37.to_hash

/-- The state after the fixture creation. -/
def stA : State := (create_task st0 info0 env0 req0).1

/-- A stored task holding a 3 atom deposit under key `"h1"`. -/
def task3 : Task := { task37 with total_deposit := [⟨"atom", 3⟩] }

/-- A state holding `task3`, for the refill scenarios. -/
def stR : State :=
  { st0 with tasks := [("h1", task3)], task_total := 1 }

/-- A state whose time index holds slot 5 ↦ ["t"] and whose block index
holds slot 5 ↦ ["b"], separating the two slot kinds. -/
def stS : State :=
  { st0 with time_slots := [(5, ["t"])], block_slots := [(5, ["b"])] }

/-- The response of the fixture creation. -/
def respA : Response :=
  { attributes :=
      [("method", "create_task"), ("slot_id", "12346"),
       ("slot_kind", "Block"), ("task_hash", hash37)]
    messages := [] }

/-- The slot-index invariant: no stored slot maps to an empty list. -/
def slotsWF (s : List (Nat × List String)) : Prop :=
  ∀ e ∈ s, ¬ e.2 = []

/-! ## Theorems -/

/-- Unfolding of `totalOf` on a cons. -/
theorem totalOf_cons (c : Coin) (cs : List Coin) (d : String) :
    totalOf (c :: cs) d =
      (if c.denom = d then c.amount else 0) + totalOf cs d := rfl

/-- A denomination not listed in a balance totals zero. -/
theorem totalOf_eq_zero (bs : List Coin) (d : String)
    (h : d ∉ bs.map Coin.denom) : totalOf bs d = 0 := by
  induction bs with
  | nil => rfl
  | cons b bs ih =>
    simp only [List.map_cons, List.mem_cons] at h
    push_neg at h
    rw [totalOf_cons, ih h.2, if_neg (fun hb => h.1 hb.symm)]

/-- The debit `subCoin` touches amounts only: the denomination column is kept. -/
theorem subCoin_denoms (bs : List Coin) (c : Coin) :
    (subCoin bs c).map Coin.denom = bs.map Coin.denom := by
  induction bs with
  | nil => rfl
  | cons b bs ih =>
    unfold subCoin
    split
    · simp
    · simp [ih]

/-- Debiting one coin from a duplicate-free balance that covers it lowers
exactly that denomination's total. -/
theorem totalOf_subCoin (bs : List Coin) (c : Coin)
    (hnd : (bs.map Coin.denom).Nodup)
    (hge : c.amount ≤ totalOf bs c.denom) (d : String) :
    totalOf (subCoin bs c) d =
      totalOf bs d - (if c.denom = d then c.amount else 0) := by
  induction bs with
  | nil =>
    simp only [totalOf, List.map_nil, List.sum_nil, Nat.le_zero] at hge ⊢
    simp [subCoin, totalOf, hge]
  | cons b bs ih =>
    simp only [List.map_cons, List.nodup_cons] at hnd
    rw [totalOf_cons] at hge
    unfold subCoin
    split
    · rename_i hb
      have hz : totalOf bs c.denom = 0 :=
        totalOf_eq_zero bs c.denom (hb ▸ hnd.1)
      rw [if_pos hb, hz] at hge
      rw [totalOf_cons, totalOf_cons]
      by_cases hd : c.denom = d
      · have hbd : b.denom = d := hb.trans hd
        have hz2 : totalOf bs d = 0 := totalOf_eq_zero bs d (hbd ▸ hnd.1)
        simp only [hbd, if_pos, if_pos hd, hz2]
        omega
      · have hbd : ¬ b.denom = d := fun hx => hd (hb ▸ hx)
        simp [hbd, hd]
    · rename_i hb
      rw [if_neg hb] at hge
      simp only [Nat.zero_add] at hge
      rw [totalOf_cons, totalOf_cons, ih hnd.2 hge]
      have hcov : (if c.denom = d then c.amount else 0) ≤ totalOf bs d := by
        split
        · rename_i hcd; exact hcd ▸ hge
        · exact Nat.zero_le _
      omega

/-- Debiting a duplicate-free, covered list of coins lowers each
denomination's total by exactly that list's total. -/
theorem totalOf_minus_tokens (bal sub : List Coin)
    (hnd : (bal.map Coin.denom).Nodup)
    (hnds : (sub.map Coin.denom).Nodup)
    (hge : ∀ c ∈ sub, c.amount ≤ totalOf bal c.denom) (d : String) :
    totalOf (minus_tokens bal sub) d = totalOf bal d - totalOf sub d := by
  induction sub generalizing bal with
  | nil => simp [minus_tokens, totalOf]
  | cons c cs ih =>
    simp only [List.map_cons, List.nodup_cons] at hnds
    have hgec : c.amount ≤ totalOf bal c.denom := hge c (by simp)
    have hstep := totalOf_subCoin bal c hnd hgec
    have hnd2 : ((subCoin bal c).map Coin.denom).Nodup := by
      rw [subCoin_denoms]; exact hnd
    have hge2 : ∀ c2 ∈ cs, c2.amount ≤ totalOf (subCoin bal c) c2.denom := by
      intro c2 hc2
      rw [hstep c2.denom, if_neg, Nat.sub_zero]
      · exact hge c2 (by simp [hc2])
      · intro hx
        exact hnds.1 (hx ▸ (List.mem_map.mpr ⟨c2, hc2, rfl⟩))
    have := ih (subCoin bal c) hnd2 hnds.2 hge2
    show totalOf (minus_tokens (subCoin bal c) cs) d = _
    rw [this, hstep d, totalOf_cons]
    have hcov : (if c.denom = d then c.amount else 0) ≤ totalOf bal d := by
      split
      · rename_i hcd; exact hcd ▸ hgec
      · exact Nat.zero_le _
    omega

/-- C5: for a catalog whose counter dominates its size (the counter is
never decremented, so this holds in every reachable state) and any
`l ≤ 1000`, `query_get_tasks` returns exactly `min l (total − i)` items,
namely the contiguous window starting at position `i` of the unpaginated
full listing in the stored ascending order; any limit is clamped so that
never more than 1000 items come back; and `i ≥ total` yields `[]`,
never an error. -/
theorem query_get_tasks_pagination_window (st : State) (i l : Nat)
    (hwf : st.tasks.length ≤ st.task_total) (hl : l ≤ 1000) :
    (query_get_tasks st (some i) (some l)).length =
      min l (st.tasks.length - i) ∧
    query_get_tasks st (some i) (some l) =
      ((st.tasks.map (fun e => taskResponse e.2)).drop i).take
        (min l (st.tasks.length - i)) ∧
    (∀ l2, (query_get_tasks st (some i) (some l2)).length ≤ 1000) ∧
    (st.tasks.length ≤ i → query_get_tasks st (some i) (some l) = []) := by
  have hlen : ∀ l2 : Nat, (query_get_tasks st (some i) (some l2)).length =
      min (min l2 (min st.task_total 1000)) (st.tasks.length - i) := by
    intro l2
    simp [query_get_tasks, List.length_take, List.length_drop]
  refine ⟨?_, ?_, ?_, ?_⟩
  · rw [hlen]
    omega
  · show ((st.tasks.drop i).take (min l (min st.task_total 1000))).map
        (fun e => taskResponse e.2) = _
    rw [← List.map_drop, ← List.map_take]
    congr 1
    rw [List.take_eq_take, List.length_drop]
    omega
  · intro l2
    rw [hlen]
    omega
  · intro hi
    rw [← List.length_eq_zero, hlen]
    omega

/-- C5 witness: the post-creation state holds one task; a window at
`i = 0`, `l = 5` returns exactly that one response, no listing ever
exceeds 1000 items, and `i = 3` past the end yields `[]`. -/
theorem query_get_tasks_pagination_window_witness :
    (query_get_tasks stA (some 0) (some 5)).length = min 5 (stA.tasks.length - 0) ∧
    (stA.tasks.length ≤ 3 → query_get_tasks stA (some 3) (some 5) = []) := by
  refine ⟨(query_get_tasks_pagination_window stA 0 5 (by decide) (by decide)).1,
    (query_get_tasks_pagination_window stA 3 5 (by decide) (by decide)).2.2.2⟩

/-- Removing a key from the catalog makes lookups of that key fail. -/
theorem tasksGet_tasksRemove (ts : List (String × Task)) (k : String) :
    tasksGet (tasksRemove ts k) k = none := by
  unfold tasksGet
  rw [List.find?_eq_none.mpr]
  intro e he
  have := (List.mem_filter.mp he).2
  simp at this
  simp [this]

/-- After a scrub no stored slot list contains the scrubbed hash. -/
theorem scrub_not_mem (s : List (Nat × List String)) (hash : String)
    (sid : Nat) (l : List String)
    (h : slotsGet (scrub s hash) sid = some l) : hash ∉ l := by
  unfold slotsGet at h
  cases hfind : (scrub s hash).find? (fun e => e.1 = sid) with
  | none => rw [hfind] at h; cases h
  | some e =>
    rw [hfind] at h
    cases h
    have he : e ∈ scrub s hash := List.mem_of_find?_eq_some hfind
    unfold scrub at he
    obtain ⟨hmem, -⟩ := List.mem_filter.mp he
    obtain ⟨a, -, ha⟩ := List.mem_map.mp hmem
    intro hin
    rw [← ha] at hin
    have := (List.mem_filter.mp hin).2
    simp at this

/-- C2: `remove_task` on a stored hash deletes the task from the catalog,
scrubs the hash from every slot list of both indices, queues exactly one
bank-send refunding the task's full remaining deposit to its stored
owner, and lowers the aggregate ledger by exactly that deposit (stated
per denomination for a duplicate-free ledger that covers the deposit);
on an absent hash it fails with the not-found error and returns the
state unchanged. -/
theorem remove_task_deletes_scrubs_refunds_and_debits (st : State)
    (k : String) (t : Task)
    (hnd : (st.config.available_balance.map Coin.denom).Nodup)
    (hnds : (t.total_deposit.map Coin.denom).Nodup)
    (hge : ∀ c ∈ t.total_deposit,
      c.amount ≤ totalOf st.config.available_balance c.denom) :
    (tasksGet st.tasks k = none →
      remove_task st k = (st, Except.error ⟨"No task found by hash"⟩)) ∧
    (tasksGet st.tasks k = some t →
      (remove_task st k).2 = Except.ok
        { attributes := [("method", "remove_task")]
          messages := [⟨t.owner_id, t.total_deposit⟩] } ∧
      tasksGet (remove_task st k).1.tasks k = none ∧
      (∀ sid l, slotsGet (remove_task st k).1.time_slots sid = some l →
        k ∉ l) ∧
      (∀ sid l, slotsGet (remove_task st k).1.block_slots sid = some l →
        k ∉ l) ∧
      (remove_task st k).1.config.available_balance =
        minus_tokens st.config.available_balance t.total_deposit ∧
      (∀ d, totalOf ((remove_task st k).1.config.available_balance) d =
        totalOf st.config.available_balance d - totalOf t.total_deposit d)) := by
  constructor
  · intro h
    simp only [remove_task, h]
  · intro h
    have hrm : remove_task st k =
        ({ st with
            tasks := tasksRemove st.tasks k
            time_slots := scrub st.time_slots k
            block_slots := scrub st.block_slots k
            config := { st.config with
              available_balance :=
                minus_tokens st.config.available_balance t.total_deposit } },
          Except.ok { attributes := [("method", "remove_task")]
                      messages := [⟨t.owner_id, t.total_deposit⟩] }) := by
      simp only [remove_task, h]
    rw [hrm]
    exact ⟨rfl, tasksGet_tasksRemove _ _,
      fun sid l hl => scrub_not_mem _ _ _ _ hl,
      fun sid l hl => scrub_not_mem _ _ _ _ hl, rfl,
      fun d => totalOf_minus_tokens _ _ hnd hnds hge d⟩

/-- C2 witness: removing the fixture task from the post-creation state
succeeds, refunds 37 atom to `alice`, empties the catalog of the hash,
leaves no slot list holding the hash, and drops the atom total to 0. -/
theorem remove_task_deletes_scrubs_refunds_and_debits_witness :
    (remove_task stA hash37).2 = Except.ok
      { attributes := [("method", "remove_task")]
        messages := [⟨"alice", [⟨"atom", 37⟩]⟩] } ∧
    tasksGet (remove_task stA hash37).1.tasks hash37 = none ∧
    totalOf ((remove_task stA hash37).1.config.available_balance) "atom" = 0 := by
  have hmain :=
    (remove_task_deletes_scrubs_refunds_and_debits stA hash37 task37
      (by decide) (by decide) (by decide)).2 (by decide)
  exact ⟨hmain.1, hmain.2.1, by
    have := hmain.2.2.2.2.2 ("atom")
    rw [this]
    decide⟩

/-- C10: `remove_task` takes no caller identity at all (its signature has
only the state and the hash), so no authorization is checked: removing
any stored task succeeds for every caller, with the refund instruction
always addressed to the task's stored owner, and the only error it can
return is the not-found error for an absent hash. -/
theorem remove_task_checks_no_caller (st : State) (k : String) :
    (tasksGet st.tasks k = none →
      remove_task st k = (st, Except.error ⟨"No task found by hash"⟩)) ∧
    (∀ t, tasksGet st.tasks k = some t →
      (remove_task st k).2 = Except.ok
        { attributes := [("method", "remove_task")]
          messages := [⟨t.owner_id, t.total_deposit⟩] }) := by
  constructor
  · intro h
    simp only [remove_task, h]
  · intro t h
    simp only [remove_task, h]

/-- C10 witness: at the fixture state the stored task is removed with the
refund addressed to the stored owner, and an unknown hash is rejected
with the not-found error. -/
theorem remove_task_checks_no_caller_witness :
    (remove_task stA ("nosuch")).2 =
      Except.error ⟨"No task found by hash"⟩ ∧
    (remove_task stA hash37).2 = Except.ok
      { attributes := [("method", "remove_task")]
        messages := [⟨"alice", [⟨"atom", 37⟩]⟩] } := by
  refine ⟨?_, (remove_task_checks_no_caller stA hash37).2 task37 (by decide)⟩
  have := (remove_task_checks_no_caller stA "nosuch").1 (by decide)
  rw [this]

/-- A slot push always stores a non-empty list. -/
theorem update_vec_data_ne_nil (d : Option (List String)) (hash : String) :
    ¬ update_vec_data d hash = [] := by
  cases d <;> simp [update_vec_data]

/-- Saving a non-empty list into a well-formed index keeps it
well-formed. -/
theorem slotsWF_slotsSet (s : List (Nat × List String)) (k : Nat)
    (v : List String) (hs : slotsWF s) (hv : ¬ v = []) :
    slotsWF (slotsSet s k v) := by
  induction s with
  | nil =>
    intro e he
    simp only [slotsSet, List.mem_singleton] at he
    rw [he]
    exact hv
  | cons a s ih =>
    have ha := hs a (by simp)
    have hs2 : slotsWF s := fun e he => hs e (by simp [he])
    intro e he
    unfold slotsSet at he
    split at he
    · rcases List.mem_cons.mp he with h1 | h2
      · rw [h1]; exact hv
      · exact hs e h2
    · split at he
      · rcases List.mem_cons.mp he with h1 | h2
        · rw [h1]; exact hv
        · exact hs2 e h2
      · rcases List.mem_cons.mp he with h1 | h2
        · rw [h1]; exact ha
        · exact ih hs2 e h2

/-- The scrub never leaves an empty slot list stored. -/
theorem slotsWF_scrub (s : List (Nat × List String)) (hash : String) :
    slotsWF (scrub s hash) := by
  intro e he
  have h2 := (List.mem_filter.mp he).2
  intro hx
  rw [hx] at h2
  simp at h2

/-- C8: both operations preserve the no-empty-slot invariant: creation
only appends a hash to a slot's list or opens a slot with a one-element
list, and removal deletes any slot whose list drains (or already was)
empty instead of saving it, so occupied-slot enumeration never meets an
empty slot. -/
theorem slots_never_stored_empty (st : State) (info : MessageInfo)
    (env : Env) (req : TaskRequest) (k : String)
    (hb : slotsWF st.block_slots) (ht : slotsWF st.time_slots) :
    (slotsWF (create_task st info env req).1.block_slots ∧
     slotsWF (create_task st info env req).1.time_slots) ∧
    (slotsWF (remove_task st k).1.block_slots ∧
     slotsWF (remove_task st k).1.time_slots) := by
  constructor
  · constructor
    · show slotsWF (create_task st info env req).1.block_slots
      simp only [create_task]
      repeat' split
      all_goals
        first
          | exact hb
          | exact slotsWF_slotsSet _ _ _ hb (update_vec_data_ne_nil _ _)
    · show slotsWF (create_task st info env req).1.time_slots
      simp only [create_task]
      repeat' split
      all_goals
        first
          | exact ht
          | exact slotsWF_slotsSet _ _ _ ht (update_vec_data_ne_nil _ _)
  · cases hr : tasksGet st.tasks k with
    | none =>
      have : remove_task st k = (st, Except.error ⟨"No task found by hash"⟩) := by
        simp only [remove_task, hr]
      rw [this]
      exact ⟨hb, ht⟩
    | some t =>
      have hrm : remove_task st k =
          ({ st with
              tasks := tasksRemove st.tasks k
              time_slots := scrub st.time_slots k
              block_slots := scrub st.block_slots k
              config := { st.config with
                available_balance :=
                  minus_tokens st.config.available_balance t.total_deposit } },
            Except.ok { attributes := [("method", "remove_task")]
                        messages := [⟨t.owner_id, t.total_deposit⟩] }) := by
        simp only [remove_task, hr]
      rw [hrm]
      exact ⟨slotsWF_scrub _ _, slotsWF_scrub _ _⟩

/-- C8 witness: from the fresh state, both slot indices satisfy the
no-empty-slot invariant after the fixture creation and after a removal
attempt. -/
theorem slots_never_stored_empty_witness :
    (slotsWF (create_task st0 info0 env0 req0).1.block_slots ∧
     slotsWF (create_task st0 info0 env0 req0).1.time_slots) ∧
    (slotsWF (remove_task st0 ("h")).1.block_slots ∧
     slotsWF (remove_task st0 ("h")).1.time_slots) :=
  slots_never_stored_empty st0 info0 env0 req0 ("h")
    (by intro e he; simp [st0] at he) (by intro e he; simp [st0] at he)

/-- A fresh key is found after a sorted insert. -/
theorem tasksGet_insert (ts : List (String × Task)) (k : String) (v : Task)
    (h : tasksGet ts k = none) : tasksGet (tasksInsert ts k v) k = some v := by
  induction ts with
  | nil =>
    simp [tasksGet, tasksInsert, List.find?]
  | cons e ts ih =>
    have hek : ¬ e.1 = k := by
      intro hx
      unfold tasksGet at h
      rw [List.find?_cons_of_pos _ (by simp [hx])] at h
      simp at h
    have hts : tasksGet ts k = none := by
      unfold tasksGet at h ⊢
      rw [List.find?_cons_of_neg _ (by simp [hek])] at h
      exact h
    unfold tasksInsert
    split
    · unfold tasksGet
      rw [List.find?_cons_of_pos _ (by simp)]
    · unfold tasksGet
      rw [List.find?_cons_of_neg _ (by simp [hek])]
      exact ih hts

/-- Success elimination for `create_task`: a successful call certifies
every guard and pins down the new catalog and the preserved config
fields. -/
theorem create_task_ok_elim (st st1 : State) (info : MessageInfo) (env : Env)
    (req : TaskRequest) (r : Response)
    (h : create_task st info env req = (st1, Except.ok r)) :
    info.funds.isEmpty = false ∧
    st.config.paused = false ∧
    (builtTask info req).is_valid_msg env.contract_address info.sender
      st.config.owner_id = true ∧
    (builtTask info req).interval.is_valid = true ∧
    ¬ ((builtTask info req).interval.next env
        (builtTask info req).boundary).1 = 0 ∧
    tasksGet st.tasks (builtTask info req).to_hash = none ∧
    st1.tasks = tasksInsert st.tasks (builtTask info req).to_hash
      (builtTask info req) ∧
    st1.config.paused = st.config.paused ∧
    st1.config.owner_id = st.config.owner_id := by
  simp only [create_task] at h
  split at h
  · injection h with h1 h2; exact Except.noConfusion h2
  split at h
  · injection h with h1 h2; exact Except.noConfusion h2
  split at h
  · injection h with h1 h2; exact Except.noConfusion h2
  split at h
  · injection h with h1 h2; exact Except.noConfusion h2
  split at h
  · injection h with h1 h2; exact Except.noConfusion h2
  split at h
  · injection h with h1 h2; exact Except.noConfusion h2
  rename_i hc1 hc2 hc3 hc4 hc5 hc6
  injection h with h1 h2
  rw [← h1]
  simp only [Bool.not_eq_true] at hc1 hc2
  simp only [not_not] at hc3 hc4
  refine ⟨hc1, hc2, hc3, hc4, hc5, ?_, rfl, rfl, rfl⟩
  exact Option.not_isSome_iff_eq_none.mp hc6

/-- C7: after a successful create, a second create with the same
identity fields — same sender, same request, any funds — trips the
single check-then-set on the identity hash: it fails with the
task-already-exists conflict and returns the state of the first create
unchanged (no counter increment, no other mutation). -/
theorem create_task_duplicate_identity_conflicts (st st1 : State)
    (info info2 : MessageInfo) (env : Env) (req : TaskRequest) (r : Response)
    (h1 : create_task st info env req = (st1, Except.ok r))
    (hs : info2.sender = info.sender) (hf : ¬ info2.funds = []) :
    create_task st1 info2 env req =
      (st1, Except.error ⟨"Task already exists"⟩) := by
  obtain ⟨hfe, hp, hvm, hvi, hnz, hnone, htasks, hpaused, howner⟩ :=
    create_task_ok_elim st st1 info env req r h1
  have hie : info2.funds.isEmpty = false := by
    cases hfl : info2.funds with
    | nil => exact absurd hfl hf
    | cons a l => rfl
  have hp2 : st1.config.paused = false := hpaused.trans hp
  have hhash : (builtTask info2 req).to_hash = (builtTask info req).to_hash := by
    simp [Task.to_hash, builtTask, hs]
  have hvm2 : (builtTask info2 req).is_valid_msg env.contract_address
      info2.sender st1.config.owner_id = true := hvm
  have hvi2 : (builtTask info2 req).interval.is_valid = true := hvi
  have hnz2 : ¬ ((builtTask info2 req).interval.next env
      (builtTask info2 req).boundary).1 = 0 := hnz
  have hget : tasksGet st1.tasks (builtTask info2 req).to_hash =
      some (builtTask info req) := by
    rw [hhash, htasks]
    exact tasksGet_insert _ _ _ hnone
  simp [create_task, hie, hp2, hvm2, hvi2, hnz2, hget]

/-- C7 witness: repeating the fixture creation against the
post-creation state (with different attached funds) is rejected with
the conflict error and leaves the state as it was. -/
theorem create_task_duplicate_identity_conflicts_witness :
    create_task stA ⟨"alice", [⟨"atom", 13⟩]⟩ env0 req0 =
      (stA, Except.error ⟨"Task already exists"⟩) :=
  create_task_duplicate_identity_conflicts st0 stA info0
    ⟨"alice", [⟨"atom", 13⟩]⟩ env0 req0 respA rfl rfl (by decide)

/-- A saved slot is found at its id. -/
theorem slotsGet_slotsSet_self (s : List (Nat × List String)) (k : Nat)
    (v : List String) : slotsGet (slotsSet s k v) k = some v := by
  induction s with
  | nil =>
    simp [slotsSet, slotsGet, List.find?]
  | cons a s ih =>
    unfold slotsSet
    split
    · unfold slotsGet
      rw [List.find?_cons_of_pos _ (by simp)]
    · split
      · unfold slotsGet
        rw [List.find?_cons_of_pos _ (by simp)]
      · rename_i h1 h2
        unfold slotsGet
        rw [List.find?_cons_of_neg _ (by simp; intro hx; exact h2 hx.symm)]
        exact ih

/-- The pushed hash is in the pushed list. -/
theorem mem_update_vec_data (d : Option (List String)) (hash : String) :
    hash ∈ update_vec_data d hash := by
  cases d <;> simp [update_vec_data]

/-- C9 counterexample: the fixture `RunImmediately` creation at height
12345 does **not** occupy height slot 12345: creation succeeds, the
height index has no entry at the current height 12345, and the new hash
sits in slot 12346 instead. -/
theorem create_immediate_not_at_current_height :
    (create_task st0 info0 env0 req0).2 = Except.ok respA ∧
    slotsGet (create_task st0 info0 env0 req0).1.block_slots 12345 = none ∧
    slotsGet (create_task st0 info0 env0 req0).1.block_slots 12346 =
      some [hash37] := by
  refine ⟨rfl, rfl, rfl⟩

/-- C9 (amended): a funded, unpaused, action-valid, fresh
`RunImmediately` request with an unconstrained boundary resolves to slot
id `current height + 1` — the next height — with kind `Height`, and
afterwards the height-keyed index holds the new task's hash in slot
`height + 1`. -/
theorem create_immediate_schedules_next_height (st : State)
    (info : MessageInfo) (env : Env) (req : TaskRequest)
    (hreq : req.interval = Interval.immediate)
    (hbnd : req.boundary = { start := none, end_ := none })
    (hf : info.funds.isEmpty = false)
    (hp : st.config.paused = false)
    (hvm : (builtTask info req).is_valid_msg env.contract_address info.sender
      st.config.owner_id = true)
    (hnone : tasksGet st.tasks (builtTask info req).to_hash = none) :
    Interval.next Interval.immediate env { start := none, end_ := none } =
      (env.height + 1, SlotType.block) ∧
    (create_task st info env req).2.isOk = true ∧
    slotsGet (create_task st info env req).1.block_slots (env.height + 1) =
      some (update_vec_data (slotsGet st.block_slots (env.height + 1))
        (builtTask info req).to_hash) ∧
    (builtTask info req).to_hash ∈
      (slotsGet (create_task st info env req).1.block_slots
        (env.height + 1)).getD [] := by
  have hnext : (builtTask info req).interval.next env
      (builtTask info req).boundary = (env.height + 1, SlotType.block) := by
    show req.interval.next env req.boundary = _
    rw [hreq, hbnd]
    rfl
  have hvi : (builtTask info req).interval.is_valid = true := by
    show req.interval.is_valid = true
    rw [hreq]
    rfl
  refine ⟨rfl, ?_, ?_, ?_⟩ <;>
    simp [create_task, hf, hp, hvm, hvi, hnext, hnone,
      slotsGet_slotsSet_self, mem_update_vec_data, Except.isOk, Except.toBool]

/-- C9 witness: the fixture creation at height 12345 — `Immediate`
interval, open boundary, 37 atom attached, unpaused — succeeds and
stores the hash in height slot `12345 + 1`. -/
theorem create_immediate_schedules_next_height_witness :
    (create_task st0 info0 env0 req0).2.isOk = true ∧
    (builtTask info0 req0).to_hash ∈
      (slotsGet (create_task st0 info0 env0 req0).1.block_slots
        (env0.height + 1)).getD [] := by
  have h := create_immediate_schedules_next_height st0 info0 env0 req0
    rfl rfl rfl rfl (by decide) rfl
  exact ⟨h.2.1, h.2.2.2⟩

/-- C6: with an explicit slot id the code returns the *block* index's
list as the time component (tasks.rs line 140 loads `time_hashes` from
`self.block_slots`): on a state whose time index maps slot 5 to `["t"]`
and whose block index maps slot 5 to `["b"]`, the query answers
`(5, ["b"], 5, ["b"])` instead of `(5, ["b"], 5, ["t"])` — the time
component does not come from the time-keyed index. -/
theorem query_slot_tasks_explicit_slot_reads_block_index_for_time :
    query_slot_tasks stS (some 5) = (5, ["b"], 5, ["b"]) ∧
    ¬ query_slot_tasks stS (some 5) = (5, ["b"], 5, ["t"]) := by
  constructor
  · rfl
  · decide

/-- C3: the refill merge loop (tasks.rs 480–491) never appends an
attached denomination that is absent from the deposit: refilling the
stored task `"h1"` (deposit `[3 atom]`, owner `alice`) with `[5 btc]`,
called by the owner, succeeds but leaves the deposit exactly `[3 atom]`
— no `btc` entry — while the aggregate ledger still gains the 5 btc. -/
theorem refill_task_drops_unmatched_denoms :
    (refill_task stR ⟨"alice", [⟨"btc", 5⟩]⟩ "h1").1.tasks = [("h1", task3)] ∧
    (refill_task stR ⟨"alice", [⟨"btc", 5⟩]⟩ "h1").1.config.available_balance
      = [⟨"btc", 5⟩] ∧
    (refill_task stR ⟨"alice", [⟨"btc", 5⟩]⟩ "h1").2 =
      Except.ok { attributes := [("method", "refill_task"),
                                ("total_deposit", "3atom")]
                  messages := [] } := by
  refine ⟨?_, ?_, ?_⟩ <;> rfl

/-- Replacing a value at its key keeps the catalog's key column. -/
theorem tasksReplace_keys (ts : List (String × Task)) (k : String) (v : Task) :
    (tasksReplace ts k v).map Prod.fst = ts.map Prod.fst := by
  unfold tasksReplace
  rw [List.map_map]
  apply List.map_congr_left
  intro e he
  by_cases hk : e.1 = k
  · simp [hk]
  · simp [hk]

/-- C4: the identity hash reads only
{owner, schedule, boundary, stop_on_failure, actions, rules}: two tasks
differing only in `total_deposit` hash identically, and `refill_task`
never changes any task's catalog key nor either slot index. -/
theorem to_hash_ignores_deposit_refill_keeps_indices :
    (∀ (t : Task) (d : List Coin),
      Task.to_hash { t with total_deposit := d } = Task.to_hash t) ∧
    (∀ (st : State) (info : MessageInfo) (k : String),
      (refill_task st info k).1.block_slots = st.block_slots ∧
      (refill_task st info k).1.time_slots = st.time_slots ∧
      (refill_task st info k).1.tasks.map Prod.fst = st.tasks.map Prod.fst) := by
  constructor
  · intro t d
    rfl
  · intro st info k
    cases h : tasksGet st.tasks k with
    | none =>
      have hr : refill_task st info k =
          (st, Except.error ⟨"Task doesnt exist"⟩) := by
        simp only [refill_task, h]
      rw [hr]
      exact ⟨rfl, rfl, rfl⟩
    | some t =>
      by_cases ho : t.owner_id = info.sender
      · have hr : refill_task st info k =
            ({ st with
                tasks := tasksReplace st.tasks k
                  { t with
                    total_deposit := refill_merge t.total_deposit info.funds }
                config := { st.config with
                  available_balance :=
                    add_tokens st.config.available_balance info.funds } },
              Except.ok
                { attributes := [("method", "refill_task"),
                    ("total_deposit",
                      String.join
                        ((refill_merge t.total_deposit info.funds).map coinStr))]
                  messages := [] }) := by
          simp only [refill_task, h, if_neg (not_not_intro ho)]
        rw [hr]
        exact ⟨rfl, rfl, tasksReplace_keys _ _ _⟩
      · have hr : refill_task st info k =
            (st, Except.error ⟨"Only owner can refill their task"⟩) := by
          simp only [refill_task, h, if_pos ho]
        rw [hr]
        exact ⟨rfl, rfl, rfl⟩

/-- C1: whenever `create_task` returns an error — no funds attached,
paused, unsupported action message, invalid interval, terminal schedule,
or identity-hash collision — the returned storage (task catalog, both
slot indices, the task-total counter, the ledger and the whole config)
is the input state unchanged: every error return happens before any
write, the hash-collision-checked insert being the only fallible step. -/
theorem create_task_error_leaves_state_unchanged (st : State)
    (info : MessageInfo) (env : Env) (req : TaskRequest) (e : ContractError)
    (h : (create_task st info env req).2 = Except.error e) :
    (create_task st info env req).1 = st := by
  simp only [create_task] at h ⊢
  repeat' split at h
  all_goals simp_all

/-- C1 witness: creating with no funds attached errors and returns the
fixture state untouched. -/
theorem create_task_error_leaves_state_unchanged_witness :
    (create_task st0 ⟨"alice", []⟩ env0 req0).2 =
      Except.error ⟨"Must attach funds"⟩ ∧
    (create_task st0 ⟨"alice", []⟩ env0 req0).1 = st0 :=
  ⟨by rfl, create_task_error_leaves_state_unchanged st0 ⟨"alice", []⟩ env0 req0
      ⟨"Must attach funds"⟩ (by rfl)⟩

end Croncat
